import Mathlib

/-!
Verification of `client_load.py`, a load-testing client that dispatches
concurrent Plan RPCs through a bounded thread pool and reports latency
statistics.

Modelling conventions (shallow embedding of the Python source):
* Python `float` values (latencies, wall-clock times) are modelled as `ℚ`;
  the arithmetic the program performs on them is exact in this model.
* A Python `ZeroDivisionError` raised while computing the report is
  modelled by `Option`: `none` means the computation faults.
* Python strings are modelled as `List Char` (a Python `str` is a sequence
  of code points), so slicing `s[:100]` is `List.take 100`.
* The thread pool (`ThreadPoolExecutor` + `as_completed`) is modelled by
  an explicit completion order: `as_completed` yields every submitted
  future exactly once, in some order; hence the order in which outcomes
  are appended to `results` is a permutation of the submitted request
  indices `0 .. num_requests - 1`.
* The gRPC stub and the monotonic clock (`time.perf_counter`) are the
  external environment: an `Env` gives, per request index, the observed
  behaviour of the `stub.Plan` call and the two clock readings taken
  immediately around it.
-/

namespace ClientLoad

/-- Result of a single RPC call (the `LatencyResult` dataclass). -/
structure LatencyResult where
  success : Bool
  latency_ms : ℚ
  error : List Char := []
deriving DecidableEq

/-- Observable behaviour of one `stub.Plan(request, timeout=10.0)` call:
either it returns a response, or it raises `grpc.RpcError` whose string
form is `msg`. -/
inductive CallResult where
  | ok : CallResult
  | rpcError (msg : List Char) : CallResult
deriving DecidableEq

/-- External environment of a run: for each request index `i`, the
behaviour of the client call issued for robot id `i`, and the
`time.perf_counter()` readings taken immediately before (`tStart i`) and
immediately after (`tEnd i`) that call. -/
structure Env where
  call : Nat → CallResult
  tStart : Nat → ℚ
  tEnd : Nat → ℚ

/-- The clock `time.perf_counter` is monotonic: the reading taken after a
call is at least the reading taken before it. -/
def Env.ClockMonotone (env : Env) : Prop :=
  ∀ i, env.tStart i ≤ env.tEnd i

/-- Embedding of `send_plan_request`: measure the call with the two clock
readings; on success return `success=True` with the elapsed milliseconds,
on `grpc.RpcError e` return `success=False`, the elapsed milliseconds and
`error=str(e)`.  The `latency_ms` is `(end - start) * 1000` in both
branches, exactly as in the source. -/
def send_plan_request (call : CallResult) (tStart tEnd : ℚ) : LatencyResult :=
  match call with
  | CallResult.ok =>
      { success := true, latency_ms := (tEnd - tStart) * 1000 }
  | CallResult.rpcError e =>
      { success := false, latency_ms := (tEnd - tStart) * 1000, error := e }

/-- The indexed trace of a run: `run_load_test` submits
`send_plan_request(stub, i)` for every `i in range(num_requests)` and the
`futures` dict remembers which future belongs to which index `i`;
`as_completed` then yields the futures in some completion order `order`.
The trace pairs each completed index with the outcome it produced. -/
def run_trace (env : Env) (order : List Nat) : List (Nat × LatencyResult) :=
  order.map (fun i => (i, send_plan_request (env.call i) (env.tStart i) (env.tEnd i)))

/-- Embedding of `run_load_test`: the list `results`, i.e. the outcomes
appended in completion order.  `host`/`port` are absorbed into `env` (they
only select the channel the stub uses); `num_requests` and
`max_concurrent` shape the pool, and a faithful completion order is a
permutation of `range num_requests` (hypothesis `CompletionOrder`). -/
def run_load_test (env : Env) (order : List Nat) : List LatencyResult :=
  order.map (fun i => send_plan_request (env.call i) (env.tStart i) (env.tEnd i))

/-- A completion order of a run with `num_requests` requests:
`as_completed(futures)` yields every future exactly once, so the indices
arrive in some permutation of `range num_requests`. -/
def CompletionOrder (order : List Nat) (num_requests : Nat) : Prop :=
  List.Perm order (List.range num_requests)

/-- The latency section of the report (printed when `successful` is
non-empty).  `sampleVariance` is the square of the printed `Std Dev`
(`statistics.stdev`, the sample standard deviation); the variance is kept
instead of the standard deviation so the field stays rational — presence
and ordering of the standard deviation are determined by it. -/
structure LatencyStats where
  min : ℚ
  max : ℚ
  mean : ℚ
  median : ℚ
  sampleVariance : Option ℚ
  p50 : ℚ
  p90 : ℚ
  p95 : ℚ
  p99 : ℚ
deriving DecidableEq

/-- The whole report printed by `print_statistics`, reified as data. -/
structure StatsReport where
  total : Nat
  numSuccess : Nat
  numFailed : Nat
  successPct : ℚ
  failedPct : ℚ
  throughput : ℚ
  latencyStats : Option LatencyStats
  failureSample : Option (List (List Char))
deriving DecidableEq

/-- The percentile index the source computes: `int(len(latencies) * 0.50)`
etc., i.e. the floor of `n * p / 100` (`int()` truncates the non-negative
product; the model evaluates the float product exactly). -/
def percentile_idx (n p : Nat) : Nat :=
  n * p / 100

/-- The latency block computed from the sorted latency list `lats`
(lines 127-144 of the source): min/max are the ends of the sorted list,
`statistics.mean` is the exact average, `statistics.median` is the middle
element (or the average of the two middle elements), the sample variance
(whose square root is the printed `statistics.stdev`) is present only when
`len(latencies) > 1`, and the percentiles index the sorted list at
`int(n * p/100)`, the p99 index alone clamped by `min(p99_idx, n - 1)`. -/
def latencyStatsOf (lats : List ℚ) : LatencyStats :=
  let n := lats.length
  { min := lats.headI
    max := lats.getLastD 0
    mean := lats.sum / (n : ℚ)
    median :=
      if n % 2 = 1 then lats.getD (n / 2) 0
      else (lats.getD (n / 2 - 1) 0 + lats.getD (n / 2) 0) / 2
    sampleVariance :=
      if 1 < n then
        some ((lats.map (fun x => (x - lats.sum / (n : ℚ)) ^ 2)).sum / ((n : ℚ) - 1))
      else none
    p50 := lats.getD (percentile_idx n 50) 0
    p90 := lats.getD (percentile_idx n 90) 0
    p95 := lats.getD (percentile_idx n 95) 0
    p99 := lats.getD (min (percentile_idx n 99) (n - 1)) 0 }

/-- The sorted latency list of the successful outcomes
(`latencies = [r.latency_ms for r in successful]; latencies.sort()`). -/
def sortedLatencies (results : List LatencyResult) : List ℚ :=
  List.insertionSort (· ≤ ·) ((results.filter (fun r => r.success)).map (fun r => r.latency_ms))

/-- Embedding of `print_statistics`: the printed report as a value.
Line 118 divides by `len(results)` with no guard, so a run with zero
outcomes raises `ZeroDivisionError` (modelled `none`); line 121 then
divides by `total_time` with no guard, so a zero elapsed time also raises
(modelled `none`).  Otherwise the report is produced; the latency section
is present exactly when `successful` is non-empty and the error sample
exactly when `failed` is non-empty (`failed[:5]`, messages cut to
`r.error[:100]`). -/
def print_statistics (results : List LatencyResult) (total_time : ℚ) : Option StatsReport :=
  let successful := results.filter (fun r => r.success)
  let failed := results.filter (fun r => !r.success)
  if results.length = 0 then none
  else if total_time = 0 then none
  else some
    { total := results.length
      numSuccess := successful.length
      numFailed := failed.length
      successPct := 100 * (successful.length : ℚ) / (results.length : ℚ)
      failedPct := 100 * (failed.length : ℚ) / (results.length : ℚ)
      throughput := (results.length : ℚ) / total_time
      latencyStats :=
        if successful.isEmpty then none
        else some (latencyStatsOf (sortedLatencies results))
      failureSample :=
        if failed.isEmpty then none
        else some ((failed.take 5).map (fun r => r.error.take 100)) }

/-! ## Helper lemmas -/

/-- The latency a `send_plan_request` outcome records is `(end - start) * 1000`
in both the success and the error branch. -/
lemma send_plan_request_latency (c : CallResult) (a b : ℚ) :
    (send_plan_request c a b).latency_ms = (b - a) * 1000 := by
  cases c <;> rfl

/-- Index bound for the unclamped percentile index: for a non-empty list and
any percentile `p ≤ 99` the floor index stays below the length. -/
lemma percentile_idx_le {n p : Nat} (hn : 1 ≤ n) (hp : p ≤ 99) :
    percentile_idx n p ≤ n - 1 := by
  have h2 : n * p ≤ n * 99 := Nat.mul_le_mul (le_refl n) hp
  unfold percentile_idx
  generalize hm : n * p = m at h2 ⊢
  omega

/-- Reading a `(· ≤ ·)`-sorted rational list at a smaller in-bounds index
yields a smaller-or-equal value. -/
lemma sorted_getD_mono {l : List ℚ} (h : List.Sorted (· ≤ ·) l) {i j : Nat}
    (hij : i ≤ j) (hj : j < l.length) : l.getD i 0 ≤ l.getD j 0 := by
  have hi : i < l.length := lt_of_le_of_lt hij hj
  rw [List.getD_eq_getElem _ _ hi, List.getD_eq_getElem _ _ hj]
  rcases Nat.lt_or_ge i j with hlt | hge
  · have hfin : (⟨i, hi⟩ : Fin l.length) < ⟨j, hj⟩ := hlt
    have := h.rel_get_of_lt hfin
    simpa [List.get_eq_getElem] using this
  · have hij' : i = j := Nat.le_antisymm hij hge
    subst hij'
    rfl

/-- On a run with at least one outcome and a non-zero elapsed time,
`print_statistics` reaches the end of the function and the produced report
is the record below. -/
lemma print_statistics_eq_some (results : List LatencyResult) (tt : ℚ)
    (h0 : results ≠ []) (ht : tt ≠ 0) :
    print_statistics results tt = some
      { total := results.length
        numSuccess := (results.filter (fun r => r.success)).length
        numFailed := (results.filter (fun r => !r.success)).length
        successPct := 100 * ((results.filter (fun r => r.success)).length : ℚ) /
          (results.length : ℚ)
        failedPct := 100 * ((results.filter (fun r => !r.success)).length : ℚ) /
          (results.length : ℚ)
        throughput := (results.length : ℚ) / tt
        latencyStats :=
          if (results.filter (fun r => r.success)).isEmpty then none
          else some (latencyStatsOf (sortedLatencies results))
        failureSample :=
          if (results.filter (fun r => !r.success)).isEmpty then none
          else some (((results.filter (fun r => !r.success)).take 5).map
            (fun r => r.error.take 100)) } := by
  have h0' : ¬ results.length = 0 := by simp [List.length_eq_zero, h0]
  simp [print_statistics, h0', ht]

/-- The sorted latency list has as many entries as there are successful
outcomes. -/
lemma sortedLatencies_length (results : List LatencyResult) :
    (sortedLatencies results).length = (results.filter (fun r => r.success)).length := by
  simpa [sortedLatencies] using
    (List.perm_insertionSort (· ≤ ·)
      ((results.filter (fun r => r.success)).map (fun r => r.latency_ms))).length_eq

/-- Exactly-once production: for any completion order of an `N`-request run
and any index `j < N`, the trace holds exactly one entry for `j`, namely the
outcome `send_plan_request` produced for it. -/
lemma run_trace_filter (env : Env) {N : Nat} {order : List Nat}
    (horder : CompletionOrder order N) {j : Nat} (hj : j < N) :
    (run_trace env order).filter (fun p => p.1 == j) =
      [(j, send_plan_request (env.call j) (env.tStart j) (env.tEnd j))] := by
  have hnd : order.Nodup := horder.nodup_iff.2 (List.nodup_range N)
  have hmem : j ∈ order := horder.mem_iff.2 (List.mem_range.2 hj)
  have hcount : order.count j = 1 := List.count_eq_one_of_mem hnd hmem
  show (order.map (fun i =>
      (i, send_plan_request (env.call i) (env.tStart i) (env.tEnd i)))).filter
      (fun p => p.1 == j) = _
  rw [List.filter_map]
  have hcomp : ((fun p : Nat × LatencyResult => p.1 == j) ∘ (fun i =>
      (i, send_plan_request (env.call i) (env.tStart i) (env.tEnd i)))) =
      (fun i => i == j) := rfl
  rw [hcomp, List.filter_beq, hcount]
  rfl

/-- Unfolding the percentile fields of `latencyStatsOf`. -/
lemma latencyStatsOf_p50 (lats : List ℚ) :
    (latencyStatsOf lats).p50 = lats.getD (percentile_idx lats.length 50) 0 := rfl

/-- Unfolding the p90 field of `latencyStatsOf`. -/
lemma latencyStatsOf_p90 (lats : List ℚ) :
    (latencyStatsOf lats).p90 = lats.getD (percentile_idx lats.length 90) 0 := rfl

/-- Unfolding the p95 field of `latencyStatsOf`. -/
lemma latencyStatsOf_p95 (lats : List ℚ) :
    (latencyStatsOf lats).p95 = lats.getD (percentile_idx lats.length 95) 0 := rfl

/-- Unfolding the p99 field of `latencyStatsOf` (the one index the code
clamps). -/
lemma latencyStatsOf_p99 (lats : List ℚ) :
    (latencyStatsOf lats).p99 =
      lats.getD (min (percentile_idx lats.length 99) (lats.length - 1)) 0 := rfl

/-- Unfolding the sample-variance field of `latencyStatsOf`. -/
lemma latencyStatsOf_sampleVariance (lats : List ℚ) :
    (latencyStatsOf lats).sampleVariance =
      if 1 < lats.length then
        some ((lats.map (fun x => (x - lats.sum / (lats.length : ℚ)) ^ 2)).sum /
          ((lats.length : ℚ) - 1))
      else none := rfl

/-! ## Claim theorems -/

/-- C1: for every total request count `N ≥ 0` and concurrency bound `C ≥ 1`,
`run_load_test` yields exactly `N` outcomes — one per request index
`0 .. N-1`, no index skipped or duplicated (the result list is a permutation
of the per-index outcomes) — and, the clock being monotonic, every outcome's
elapsed latency is non-negative. -/
theorem run_load_test_complete (env : Env) (N C : Nat) (order : List Nat)
    (hC : 1 ≤ C) (horder : CompletionOrder order N) (hclock : env.ClockMonotone) :
    (run_load_test env order).length = N ∧
    List.Perm (run_load_test env order)
      ((List.range N).map (fun i =>
        send_plan_request (env.call i) (env.tStart i) (env.tEnd i))) ∧
    ∀ r ∈ run_load_test env order, 0 ≤ r.latency_ms := by
  have hlen : order.length = N := by simpa using horder.length_eq
  refine ⟨by simp [run_load_test, hlen], horder.map _, ?_⟩
  intro r hr
  rcases List.mem_map.1 hr with ⟨i, _, rfl⟩
  rw [send_plan_request_latency]
  have h1 : (0 : ℚ) ≤ env.tEnd i - env.tStart i := by
    have := hclock i
    linarith
  have h2 : (0 : ℚ) ≤ 1000 := by norm_num
  exact mul_nonneg h1 h2

/-- Demo environment for the C1 witness: every call succeeds, each call is
timed from 0 to 1. -/
def demoEnv : Env :=
  { call := fun _ => CallResult.ok, tStart := fun _ => 0, tEnd := fun _ => 1 }

/-- Witness for C1 at `N = 2`, `C = 1`, completion order `[1, 0]`. -/
theorem run_load_test_complete_witness :
    (run_load_test demoEnv [1, 0]).length = 2 ∧
    List.Perm (run_load_test demoEnv [1, 0])
      ((List.range 2).map (fun i =>
        send_plan_request (demoEnv.call i) (demoEnv.tStart i) (demoEnv.tEnd i))) ∧
    ∀ r ∈ run_load_test demoEnv [1, 0], 0 ≤ r.latency_ms :=
  run_load_test_complete demoEnv 2 1 [1, 0] (by decide)
    (by show List.Perm [1, 0] (List.range 2); decide)
    (fun i => by norm_num [demoEnv])

/-- C8: a client call failure at index `i` is captured into that request's
outcome as `success = false` with the error's message and the measured
elapsed time; the run still produces all `N` outcomes (it is not aborted),
every other index still yields exactly one outcome, and index `i` yields
exactly that failure outcome. -/
theorem failure_captured (env : Env) (N : Nat) (order : List Nat) (i : Nat)
    (e : List Char) (horder : CompletionOrder order N) (hi : i < N)
    (hcall : env.call i = CallResult.rpcError e) :
    (run_load_test env order).length = N ∧
    (∀ j, j < N → (run_trace env order).filter (fun p => p.1 == j) =
      [(j, send_plan_request (env.call j) (env.tStart j) (env.tEnd j))]) ∧
    (run_trace env order).filter (fun p => p.1 == i) =
      [(i, { success := false, latency_ms := (env.tEnd i - env.tStart i) * 1000,
             error := e })] := by
  refine ⟨?_, fun j hj => run_trace_filter env horder hj, ?_⟩
  · have hlen : order.length = N := by simpa using horder.length_eq
    simp [run_load_test, hlen]
  · rw [run_trace_filter env horder hi, hcall]
    rfl

/-- Demo environment for the C8 witness: the single call raises an
`RpcError` printed as `"b"`, timed from 2 to 5. -/
def demoFailEnv : Env :=
  { call := fun _ => CallResult.rpcError ['b'], tStart := fun _ => 2,
    tEnd := fun _ => 5 }

/-- Witness for C8 at `N = 1`, order `[0]`, failing index `0`. -/
theorem failure_captured_witness :
    (run_load_test demoFailEnv [0]).length = 1 ∧
    (∀ j, j < 1 → (run_trace demoFailEnv [0]).filter (fun p => p.1 == j) =
      [(j, send_plan_request (demoFailEnv.call j) (demoFailEnv.tStart j)
        (demoFailEnv.tEnd j))]) ∧
    (run_trace demoFailEnv [0]).filter (fun p => p.1 == 0) =
      [(0, { success := false,
             latency_ms := (demoFailEnv.tEnd 0 - demoFailEnv.tStart 0) * 1000,
             error := ['b'] })] :=
  failure_captured demoFailEnv 1 [0] 0 ['b']
    (by show List.Perm [0] (List.range 1); decide) (by decide) rfl

/-- C10: for every list length `n ≥ 1` and `p ∈ {50, 90, 95}`, the unclamped
percentile index `int(n * p / 100)` is already at most `n - 1`, so indexing a
sorted latency list of length `n` there — without the clamp the code applies
only to p99 — never reads out of bounds. -/
theorem unclamped_percentile_idx_in_bounds (n : Nat) (l : List ℚ)
    (hn : 1 ≤ n) (hl : l.length = n) :
    percentile_idx n 50 ≤ n - 1 ∧ percentile_idx n 90 ≤ n - 1 ∧
    percentile_idx n 95 ≤ n - 1 ∧ percentile_idx n 50 < l.length ∧
    percentile_idx n 90 < l.length ∧ percentile_idx n 95 < l.length := by
  unfold percentile_idx
  omega

/-- Witness for C10 at `n = 10` with a 10-element list. -/
theorem unclamped_percentile_idx_in_bounds_witness :
    percentile_idx 10 50 ≤ 10 - 1 ∧ percentile_idx 10 90 ≤ 10 - 1 ∧
    percentile_idx 10 95 ≤ 10 - 1 ∧
    percentile_idx 10 50 < (List.replicate 10 (0 : ℚ)).length ∧
    percentile_idx 10 90 < (List.replicate 10 (0 : ℚ)).length ∧
    percentile_idx 10 95 < (List.replicate 10 (0 : ℚ)).length :=
  unclamped_percentile_idx_in_bounds 10 (List.replicate 10 0) (by decide)
    (by simp)

/-- C4 (failing part): line 118 divides by `len(results)` with no guard, so
on a run with zero outcomes `print_statistics` raises `ZeroDivisionError`
(modelled as `none`) instead of producing a guarded report. -/
theorem zero_total_division_fault : print_statistics [] 1 = none := rfl

/-- C5 (failing part): a `RunResult` with zero outcomes has zero successful
outcomes, and on it `print_statistics` faults with `ZeroDivisionError` at
the success-percentage division instead of producing a report without a
latency section. -/
theorem zero_success_empty_run_fault : print_statistics [] 2 = none := rfl

/-- C6 (failing part): line 121 divides by `total_time` with no guard, so a
run whose elapsed time is zero makes `print_statistics` raise
`ZeroDivisionError` (modelled as `none`) at the throughput division. -/
theorem zero_elapsed_division_fault :
    print_statistics [{ success := true, latency_ms := 7, error := [] }] 0 = none := by
  simp [print_statistics]

/-- C2: for a run with at least one successful outcome (and a measured
elapsed time, so the report is produced), each reported percentile
`p ∈ {50, 90, 95, 99}` equals the sorted latency list read at index
`floor(n * p / 100)` clamped to `[0, n-1]`, where `n` is the number of
successes.  (For p < 100 the clamp is a no-op, which is why the code only
clamps p99.) -/
theorem percentile_nearest_rank (results : List LatencyResult) (tt : ℚ)
    (hs : results.filter (fun r => r.success) ≠ []) (ht : tt ≠ 0) :
    ∃ r stats, print_statistics results tt = some r ∧
      r.latencyStats = some stats ∧
      stats.p50 = (sortedLatencies results).getD
        (min (percentile_idx (results.filter (fun r => r.success)).length 50)
          ((results.filter (fun r => r.success)).length - 1)) 0 ∧
      stats.p90 = (sortedLatencies results).getD
        (min (percentile_idx (results.filter (fun r => r.success)).length 90)
          ((results.filter (fun r => r.success)).length - 1)) 0 ∧
      stats.p95 = (sortedLatencies results).getD
        (min (percentile_idx (results.filter (fun r => r.success)).length 95)
          ((results.filter (fun r => r.success)).length - 1)) 0 ∧
      stats.p99 = (sortedLatencies results).getD
        (min (percentile_idx (results.filter (fun r => r.success)).length 99)
          ((results.filter (fun r => r.success)).length - 1)) 0 := by
  have h0 : results ≠ [] := by
    intro h
    rw [h] at hs
    exact hs rfl
  have hn : 1 ≤ (results.filter (fun r => r.success)).length := List.length_pos.2 hs
  have hEmp : (results.filter (fun r => r.success)).isEmpty = false := by
    simp [List.isEmpty_iff, hs]
  have hlen := sortedLatencies_length results
  refine ⟨_, latencyStatsOf (sortedLatencies results),
    print_statistics_eq_some results tt h0 ht, by simp [hEmp], ?_, ?_, ?_, ?_⟩
  · rw [latencyStatsOf_p50, hlen, min_eq_left (percentile_idx_le hn (by norm_num))]
  · rw [latencyStatsOf_p90, hlen, min_eq_left (percentile_idx_le hn (by norm_num))]
  · rw [latencyStatsOf_p95, hlen, min_eq_left (percentile_idx_le hn (by norm_num))]
  · rw [latencyStatsOf_p99, hlen]

/-- Demo run for aggregator witnesses: two successes (latencies 5 and 3)
and one failure with message `"x"`. -/
def demoRun : List LatencyResult :=
  [{ success := true, latency_ms := 5, error := [] },
   { success := true, latency_ms := 3, error := [] },
   { success := false, latency_ms := 2, error := ['x'] }]

/-- Witness for C2 on `demoRun` with elapsed time 1. -/
theorem percentile_nearest_rank_witness :
    ∃ r stats, print_statistics demoRun 1 = some r ∧
      r.latencyStats = some stats ∧
      stats.p50 = (sortedLatencies demoRun).getD
        (min (percentile_idx (demoRun.filter (fun r => r.success)).length 50)
          ((demoRun.filter (fun r => r.success)).length - 1)) 0 ∧
      stats.p90 = (sortedLatencies demoRun).getD
        (min (percentile_idx (demoRun.filter (fun r => r.success)).length 90)
          ((demoRun.filter (fun r => r.success)).length - 1)) 0 ∧
      stats.p95 = (sortedLatencies demoRun).getD
        (min (percentile_idx (demoRun.filter (fun r => r.success)).length 95)
          ((demoRun.filter (fun r => r.success)).length - 1)) 0 ∧
      stats.p99 = (sortedLatencies demoRun).getD
        (min (percentile_idx (demoRun.filter (fun r => r.success)).length 99)
          ((demoRun.filter (fun r => r.success)).length - 1)) 0 :=
  percentile_nearest_rank demoRun 1 (by decide) (by norm_num)

/-- C3: on any run with at least one success (and a measured elapsed time),
the reported percentiles are monotonically non-decreasing:
`p50 ≤ p90 ≤ p95 ≤ p99`. -/
theorem percentiles_monotone (results : List LatencyResult) (tt : ℚ)
    (hs : results.filter (fun r => r.success) ≠ []) (ht : tt ≠ 0) :
    ∃ r stats, print_statistics results tt = some r ∧
      r.latencyStats = some stats ∧
      stats.p50 ≤ stats.p90 ∧ stats.p90 ≤ stats.p95 ∧ stats.p95 ≤ stats.p99 := by
  have h0 : results ≠ [] := by
    intro h
    rw [h] at hs
    exact hs rfl
  have hEmp : (results.filter (fun r => r.success)).isEmpty = false := by
    simp [List.isEmpty_iff, hs]
  have hsorted : List.Sorted (· ≤ ·) (sortedLatencies results) :=
    List.sorted_insertionSort _ _
  have hn1 : 1 ≤ (sortedLatencies results).length := by
    rw [sortedLatencies_length]
    exact List.length_pos.2 hs
  refine ⟨_, latencyStatsOf (sortedLatencies results),
    print_statistics_eq_some results tt h0 ht, by simp [hEmp], ?_, ?_, ?_⟩
  · rw [latencyStatsOf_p50, latencyStatsOf_p90]
    exact sorted_getD_mono hsorted (by unfold percentile_idx; omega)
      (by unfold percentile_idx; omega)
  · rw [latencyStatsOf_p90, latencyStatsOf_p95]
    exact sorted_getD_mono hsorted (by unfold percentile_idx; omega)
      (by unfold percentile_idx; omega)
  · rw [latencyStatsOf_p95, latencyStatsOf_p99]
    exact sorted_getD_mono hsorted (by unfold percentile_idx; omega)
      (by unfold percentile_idx; omega)

/-- Witness for C3 on `demoRun` with elapsed time 1. -/
theorem percentiles_monotone_witness :
    ∃ r stats, print_statistics demoRun 1 = some r ∧
      r.latencyStats = some stats ∧
      stats.p50 ≤ stats.p90 ∧ stats.p90 ≤ stats.p95 ∧ stats.p95 ≤ stats.p99 :=
  percentiles_monotone demoRun 1 (by decide) (by norm_num)

/-- C7: on a run that produces a report, exactly one successful outcome
makes the standard deviation unavailable (the sample variance, whose square
root is the printed standard deviation, is `none` — no crash, the
conditional expression guards the call), while two or more successes yield
the sample variance `Σ (x - mean)² / (n - 1)` of the successful latencies. -/
theorem stddev_availability (results : List LatencyResult) (tt : ℚ)
    (h0 : results ≠ []) (ht : tt ≠ 0) :
    ((results.filter (fun r => r.success)).length = 1 →
      ∃ r stats, print_statistics results tt = some r ∧
        r.latencyStats = some stats ∧ stats.sampleVariance = none) ∧
    (2 ≤ (results.filter (fun r => r.success)).length →
      ∃ r stats, print_statistics results tt = some r ∧
        r.latencyStats = some stats ∧
        stats.sampleVariance = some
          ((((results.filter (fun r => r.success)).map (fun r => r.latency_ms)).map
              (fun x => (x - ((results.filter (fun r => r.success)).map
                (fun r => r.latency_ms)).sum /
                (((results.filter (fun r => r.success)).length : ℚ))) ^ 2)).sum /
            (((results.filter (fun r => r.success)).length : ℚ) - 1))) := by
  constructor
  · intro h1
    have hs : results.filter (fun r => r.success) ≠ [] := by
      intro h
      rw [h] at h1
      exact absurd h1 (by norm_num)
    have hEmp : (results.filter (fun r => r.success)).isEmpty = false := by
      simp [List.isEmpty_iff, hs]
    refine ⟨_, latencyStatsOf (sortedLatencies results),
      print_statistics_eq_some results tt h0 ht, by simp [hEmp], ?_⟩
    rw [latencyStatsOf_sampleVariance, sortedLatencies_length, h1]
    norm_num
  · intro h2
    have hs : results.filter (fun r => r.success) ≠ [] := by
      intro h
      rw [h] at h2
      exact absurd h2 (by norm_num)
    have hEmp : (results.filter (fun r => r.success)).isEmpty = false := by
      simp [List.isEmpty_iff, hs]
    refine ⟨_, latencyStatsOf (sortedLatencies results),
      print_statistics_eq_some results tt h0 ht, by simp [hEmp], ?_⟩
    have hperm : List.Perm (sortedLatencies results)
        ((results.filter (fun r => r.success)).map (fun r => r.latency_ms)) :=
      List.perm_insertionSort _ _
    have hsum : (sortedLatencies results).sum =
        ((results.filter (fun r => r.success)).map (fun r => r.latency_ms)).sum :=
      hperm.sum_eq
    have hlen3 : (sortedLatencies results).length =
        ((results.filter (fun r => r.success)).map (fun r => r.latency_ms)).length :=
      hperm.length_eq
    have hlt : 1 < (sortedLatencies results).length := by
      rw [sortedLatencies_length]
      omega
    rw [latencyStatsOf_sampleVariance, if_pos hlt, hsum, hlen3, List.length_map]
    congr 1
    congr 1
    exact (hperm.map (fun x =>
      (x - ((results.filter (fun r => r.success)).map (fun r => r.latency_ms)).sum /
        (((results.filter (fun r => r.success)).length : ℚ))) ^ 2)).sum_eq

/-- Witness for C7 on `demoRun` (two successes) with elapsed time 1. -/
theorem stddev_availability_witness :
    ((demoRun.filter (fun r => r.success)).length = 1 →
      ∃ r stats, print_statistics demoRun 1 = some r ∧
        r.latencyStats = some stats ∧ stats.sampleVariance = none) ∧
    (2 ≤ (demoRun.filter (fun r => r.success)).length →
      ∃ r stats, print_statistics demoRun 1 = some r ∧
        r.latencyStats = some stats ∧
        stats.sampleVariance = some
          ((((demoRun.filter (fun r => r.success)).map (fun r => r.latency_ms)).map
              (fun x => (x - ((demoRun.filter (fun r => r.success)).map
                (fun r => r.latency_ms)).sum /
                (((demoRun.filter (fun r => r.success)).length : ℚ))) ^ 2)).sum /
            (((demoRun.filter (fun r => r.success)).length : ℚ) - 1))) :=
  stddev_availability demoRun 1 (by decide) (by norm_num)

/-- C9: on a run that produces a report, the failure sample is exactly the
first 5 failed outcomes with messages cut to their first 100 characters; it
therefore holds at most 5 entries, each of at most 100 characters; with
fewer than 5 failures all of them appear; with no failures the sample is
omitted. -/
theorem failure_sample_spec (results : List LatencyResult) (tt : ℚ)
    (h0 : results ≠ []) (ht : tt ≠ 0) :
    ∃ r, print_statistics results tt = some r ∧
      (results.filter (fun r => !r.success) = [] → r.failureSample = none) ∧
      (results.filter (fun r => !r.success) ≠ [] →
        r.failureSample = some (((results.filter (fun r => !r.success)).take 5).map
          (fun r => r.error.take 100))) ∧
      (((results.filter (fun r => !r.success)).take 5).map
        (fun r => r.error.take 100)).length ≤ 5 ∧
      (∀ s ∈ ((results.filter (fun r => !r.success)).take 5).map
        (fun r => r.error.take 100), s.length ≤ 100) ∧
      ((results.filter (fun r => !r.success)).length ≤ 5 →
        (results.filter (fun r => !r.success)).take 5 =
          results.filter (fun r => !r.success)) := by
  refine ⟨_, print_statistics_eq_some results tt h0 ht, ?_, ?_, ?_, ?_, ?_⟩
  · intro hf
    simp [hf]
  · intro hf
    have hEmp : (results.filter (fun r => !r.success)).isEmpty = false := by
      simp [List.isEmpty_iff, hf]
    simp [hEmp]
  · rw [List.length_map, List.length_take]
    exact min_le_left _ _
  · intro s hsmem
    rcases List.mem_map.1 hsmem with ⟨o, _, rfl⟩
    rw [List.length_take]
    exact min_le_left _ _
  · intro hle
    exact List.take_of_length_le hle

/-- Witness for C9 on `demoRun` (one failure, message `"x"`). -/
theorem failure_sample_spec_witness :
    ∃ r, print_statistics demoRun 1 = some r ∧
      (demoRun.filter (fun r => !r.success) = [] → r.failureSample = none) ∧
      (demoRun.filter (fun r => !r.success) ≠ [] →
        r.failureSample = some (((demoRun.filter (fun r => !r.success)).take 5).map
          (fun r => r.error.take 100))) ∧
      (((demoRun.filter (fun r => !r.success)).take 5).map
        (fun r => r.error.take 100)).length ≤ 5 ∧
      (∀ s ∈ ((demoRun.filter (fun r => !r.success)).take 5).map
        (fun r => r.error.take 100), s.length ≤ 100) ∧
      ((demoRun.filter (fun r => !r.success)).length ≤ 5 →
        (demoRun.filter (fun r => !r.success)).take 5 =
          demoRun.filter (fun r => !r.success)) :=
  failure_sample_spec demoRun 1 (by decide) (by norm_num)

end ClientLoad
